import Mathlib

/-!
# A shallow embedding of the leveled, rotating logger (logger.go)

The Go package keeps one `Logger` per instance: a buffered channel of formatted
lines (`msgQueue`), a cancellation context, the sink (`innerLogger`), the file
handle of the active log file and the rotation marker `todaydate`.  A single
goroutine (`logworker`) drains the channel, writes every line and, when the
calendar day differs from the marker, runs `doRotate`.

Modelling conventions.

* Time is an instant, a count of seconds since the epoch; every `time.Now()`
  of the source is an explicit reading supplied by the environment, and
  `Add` moves the instant.  The local zone is `Host.utcOffset`, the offset
  from UTC in force at an instant, which may change (daylight saving).
  `Format("2006-01-02")` is identified with the local calendar day it prints
  (`formatDate`), a day number.
* A path is the string of the active file together with the optional date
  suffix that rotation appends.
* The channel is a list plus a closed flag; a send on a closed channel and a
  write through a nil writer are panics (`none`).  A send that has to wait for
  room in the channel is recorded when it completes.
* The standard library formatting functions are parameters (`Host`).
* The diagnostic `fmt.Print*` calls are kept as the events of `World.trace`
  that matter to rotation (entry of `doRotate`, renames, removals).
-/

namespace logger

/-! ## Constants -/

def DEBUG : Int := 0
def INFO : Int := 3
def WARNING : Int := 5
def ERROR : Int := 7

def FILE : Int := 0
def STDOUT : Int := 3
def FILESTDOUT : Int := 5

/-! ## Time -/

/-- The duration time.Hour * 24, in seconds. -/
def hours24 : Int := 86400

/-! ## Files and the world around the logger -/

/-- A file name: the active path, or the active path followed by a dot and a date. -/
structure Path where
  base : String
  date : Option Int
deriving DecidableEq, Repr

/-- One line of a file, kept with the day on which it was written (the program never reads the day). -/
structure Line where
  text : String
  day : Int
deriving DecidableEq, Repr

/-- An os.File value: a descriptor opened on a path. -/
structure File where
  fd : Nat
  name : Path
deriving DecidableEq, Repr

/-- One destination of the sink; the file may be a nil pointer. -/
inductive Target where
  | file (f : Option File)
  | stdout
deriving DecidableEq, Repr

/-- The events of rotation that the diagnostics report. -/
inductive Event where
  | rotate
  | rename (src dst : Path) (ok : Bool)
  | remove (p : Path)
deriving DecidableEq, Repr

/-- Everything outside the Logger value: files, console, descriptors, and two histories. -/
structure World where
  dir : String
  fs : Path → Option (List Line)
  console : List String
  closedFds : List Nat
  nextFd : Nat
  lines : List String
  trace : List Event

/-- The fields of the Go struct; the channel is msgQueue with queueClosed, the context is cancelled. -/
structure Logger where
  level : Int
  innerLogger : Option (List Target)
  curFile : Option File
  todaydate : Int
  filename : String
  runtimeCaller : Int
  isLogFilePath : Bool
  isLogFunc : Bool
  msgQueue : List String
  queueClosed : Bool
  cancelled : Bool
deriving DecidableEq, Repr

structure State where
  log : Logger
  world : World

/-! ## Host functions -/

/-- An argument of a log call. -/
inductive Value where
  | str (s : String)
  | date (d : Int)
deriving DecidableEq, Repr

/-- The formatting functions of the standard library and the local time zone: utcOffset
is the number of seconds east of UTC in force at an instant. -/
structure Host where
  Sprintf : String → List Value → String
  Sprint : List Value → String
  formatStamp : Int → String
  utcOffset : Int → Int

/-- The local calendar day of an instant, the value of Format("2006-01-02"): a day is an
integer, the number of the day the layout 2006-01-02 prints in the local zone. -/
def formatDate (h : Host) (t : Int) : Int := (t + h.utcOffset t) / 86400

/-- The result of runtime.Caller when it succeeds. -/
structure Frame where
  funcName : String
  file : String
  line : Int
deriving DecidableEq, Repr

/-- What one facade call reads from its environment: the clock and the call stack by depth. -/
structure Call where
  now : Int
  stack : Int → Option Frame

/-- The last element of a slash-separated path (filepath.Base). -/
def Base (path : String) : String :=
  if path = "" then "."
  else
    let stripped := path.toList.reverse.dropWhile (fun c => c == '/')
    let last := stripped.takeWhile (fun c => c != '/')
    if last = [] then "/" else String.mk last.reverse

/-! ## Formatter and facade -/

def getFormat (h : Host) (c : Call) (logobj : Logger) (tag format : String) : String :=
  let buf := h.formatStamp c.now ++ tag
  match c.stack logobj.runtimeCaller with
  | some fr =>
    let buf := if logobj.isLogFilePath then buf ++ Base fr.file ++ ":" ++ toString fr.line ++ " " else buf
    let buf := if logobj.isLogFunc then buf ++ fr.funcName ++ " " else buf
    buf ++ format
  | none => format

/-- A channel send: panics on a closed channel, appends otherwise. -/
def send (logobj : Logger) (msg : String) : Option Logger :=
  if logobj.queueClosed then none
  else some { logobj with msgQueue := logobj.msgQueue ++ [msg] }

def Errorf (h : Host) (c : Call) (logobj : Logger) (format : String) (v : List Value) : Option Logger :=
  if logobj.level > ERROR then some logobj
  else
    let format := getFormat h c logobj "ERROR " format
    if logobj.cancelled then some logobj
    else send logobj (h.Sprintf format v)

def Errorln (h : Host) (c : Call) (logobj : Logger) (args : List Value) : Option Logger :=
  if logobj.level > ERROR then some logobj
  else
    let pre := getFormat h c logobj "ERROR " ""
    if logobj.cancelled then some logobj
    else send logobj (h.Sprint (Value.str pre :: args))

def Warningf (h : Host) (c : Call) (logobj : Logger) (format : String) (v : List Value) : Option Logger :=
  if logobj.level > WARNING then some logobj
  else
    let format := getFormat h c logobj "WARNING " format
    if logobj.cancelled then some logobj
    else send logobj (h.Sprintf format v)

def Warningln (h : Host) (c : Call) (logobj : Logger) (args : List Value) : Option Logger :=
  if logobj.level > WARNING then some logobj
  else
    let pre := getFormat h c logobj "WARNING " ""
    if logobj.cancelled then some logobj
    else send logobj (h.Sprint (Value.str pre :: args))

def Infof (h : Host) (c : Call) (logobj : Logger) (format : String) (v : List Value) : Option Logger :=
  if logobj.level > INFO then some logobj
  else
    let format := getFormat h c logobj "INFO " format
    if logobj.cancelled then some logobj
    else send logobj (h.Sprintf format v)

def Infoln (h : Host) (c : Call) (logobj : Logger) (args : List Value) : Option Logger :=
  if logobj.level > INFO then some logobj
  else
    let pre := getFormat h c logobj "INFO " ""
    if logobj.cancelled then some logobj
    else send logobj (h.Sprint (Value.str pre :: args))

def Debugf (h : Host) (c : Call) (logobj : Logger) (format : String) (v : List Value) : Option Logger :=
  if logobj.level > DEBUG then some logobj
  else
    let format := getFormat h c logobj "DEBUG " format
    if logobj.cancelled then some logobj
    else send logobj (h.Sprintf format v)

def Debugln (h : Host) (c : Call) (logobj : Logger) (args : List Value) : Option Logger :=
  if logobj.level > DEBUG then some logobj
  else
    let pre := getFormat h c logobj "DEBUG " ""
    if logobj.cancelled then some logobj
    else send logobj (h.Sprint (Value.str pre :: args))

/-- Close cancels the context and closes the channel; closing a closed channel panics. -/
def Close (logobj : Logger) : Option Logger :=
  if logobj.queueClosed then none
  else some { logobj with cancelled := true, queueClosed := true }

/-- The eight facade methods, by name. -/
inductive Method where
  | Debugf | Debugln | Infof | Infoln | Warningf | Warningln | Errorf | Errorln
deriving DecidableEq, Repr

def Method.severity : Method → Int
  | .Debugf => DEBUG
  | .Debugln => DEBUG
  | .Infof => INFO
  | .Infoln => INFO
  | .Warningf => WARNING
  | .Warningln => WARNING
  | .Errorf => ERROR
  | .Errorln => ERROR

/-- Call a facade method; the template is used by the f variants only. -/
def Method.call (m : Method) (h : Host) (c : Call) (logobj : Logger)
    (format : String) (args : List Value) : Option Logger :=
  match m with
  | .Debugf => logger.Debugf h c logobj format args
  | .Debugln => logger.Debugln h c logobj args
  | .Infof => logger.Infof h c logobj format args
  | .Infoln => logger.Infoln h c logobj args
  | .Warningf => logger.Warningf h c logobj format args
  | .Warningln => logger.Warningln h c logobj args
  | .Errorf => logger.Errorf h c logobj format args
  | .Errorln => logger.Errorln h c logobj args

/-! ## The sink and the file system -/

/-- Append a line to the file at a path, when there is one. -/
def appendLine (fs : Path → Option (List Line)) (p : Path) (ln : Line) : Path → Option (List Line) :=
  fun q => if q = p then (fs p).map (fun c => c ++ [ln]) else fs q

/-- Write one line to the destinations in order, stopping at the first that fails
(a nil or closed file), as io.MultiWriter does. -/
def writeAll (w : World) (ln : Line) : List Target → World
  | [] => w
  | Target.stdout :: ts => writeAll { w with console := w.console ++ [ln.text] } ln ts
  | Target.file none :: _ => w
  | Target.file (some f) :: ts =>
    if f.fd ∈ w.closedFds then w
    else writeAll { w with fs := appendLine w.fs f.name ln } ln ts

/-- The call innerLogger.Println(msg), made at time tWrite; a nil writer panics. -/
def Println (h : Host) (tWrite : Int) (s : State) (msg : String) : Option State :=
  match s.log.innerLogger with
  | none => none
  | some out =>
    let w := { s.world with lines := s.world.lines ++ [msg] }
    some { s with world := writeAll w ⟨msg ++ "\n", formatDate h tWrite⟩ out }

/-- os.OpenFile with O_WRONLY|O_CREATE|O_APPEND: creates the file when absent. -/
def OpenFile (ok : Bool) (p : Path) (w : World) : Option File × World :=
  if ok then
    (some ⟨w.nextFd, p⟩,
      { w with nextFd := w.nextFd + 1,
               fs := fun q => if q = p then some ((w.fs p).getD []) else w.fs q })
  else (none, w)

/-- os.Rename: fails when the source is absent, replaces the destination otherwise. -/
def Rename (src dst : Path) (w : World) : World :=
  match w.fs src with
  | none => { w with trace := w.trace ++ [Event.rename src dst false] }
  | some c =>
    { w with fs := fun q => if q = dst then some c else if q = src then none else w.fs q,
             trace := w.trace ++ [Event.rename src dst true] }

/-- The method Stat of an open file succeeds until the file is closed. -/
def statOk (f : File) (w : World) : Bool := decide (f.fd ∉ w.closedFds)

/-- The method Close of a file. -/
def closeFile (f : File) (w : World) : World :=
  { w with closedFds := f.fd :: w.closedFds }

/-! ## Rotation -/

/-- What one iteration of the consumer loop reads from its environment, in program order. -/
structure Tick where
  tWrite : Int
  tCheck : Int
  call : Call
  loggingToday : Int
  tRename : Int
  openOk : Bool
  tMark : Int
  tSweep : Int

/-- The path dir/logs/filename of the active log file. -/
def activePath (s : State) : Path := ⟨s.world.dir ++ "/logs/" ++ s.log.filename, none⟩

/-- The path deleteHistory looks at: the active path with the date of five times 24 hours ago. -/
def historyPath (h : Host) (e : Tick) (s : State) : Path :=
  let time5dAgo := e.tSweep + (-1) * hours24 * 5
  ⟨s.world.dir ++ "/logs/" ++ s.log.filename, some (formatDate h time5dAgo)⟩

/-- The path the active file is renamed to: the active path with the date of 24 hours ago. -/
def rotatedPath (h : Host) (e : Tick) (s : State) : Path :=
  let time1dAgo := e.tRename + (-1) * hours24
  ⟨s.world.dir ++ "/logs/" ++ s.log.filename, some (formatDate h time1dAgo)⟩

def deleteHistory (h : Host) (e : Tick) (s : State) : State :=
  match s.world.fs (historyPath h e s) with
  | some _ =>
    { s with world := { s.world with
        fs := fun q => if q = historyPath h e s then none else s.world.fs q,
        trace := s.world.trace ++ [Event.remove (historyPath h e s)] } }
  | none => s

/-- The block of doRotate guarded by the result of Stat: close the file, rename it. -/
def closeAndRename (h : Host) (e : Tick) (prefile : File) (s : State) : State :=
  if statOk prefile s.world then
    { s with world := Rename (activePath s) (rotatedPath h e s) (closeFile prefile s.world) }
  else s

/-- The block of doRotate guarded by the file name: open the active path again and make
the sink a MultiWriter of the new file and standard output. -/
def reopen (e : Tick) (s : State) : State :=
  if s.log.filename ≠ "" then
    let r := OpenFile e.openOk (activePath s) s.world
    { log := { s.log with curFile := r.1,
                          innerLogger := some [Target.file r.1, Target.stdout] },
      world := r.2 }
  else s

/-- The assignment of the marker at the end of doRotate. -/
def setMarker (h : Host) (e : Tick) (s : State) : State :=
  { s with log := { s.log with todaydate := formatDate h e.tMark } }

/-- The entry of doRotate, as the diagnostics report it. -/
def enterRotate (s : State) : State :=
  { s with world := { s.world with trace := s.world.trace ++ [Event.rotate] } }

def doRotate (h : Host) (e : Tick) (s : State) : State :=
  match s.log.curFile with
  | none => enterRotate s
  | some prefile =>
    deleteHistory h e (setMarker h e (reopen e (closeAndRename h e prefile (enterRotate s))))

/-! ## The consumer -/

/-- One iteration of the loop of logworker, for a message already received. -/
def logworkerBody (h : Host) (e : Tick) (s : State) (msg : String) : Option State :=
  match Println h e.tWrite s msg with
  | none => none
  | some s =>
    let nowDate := formatDate h e.tCheck
    if nowDate ≠ s.log.todaydate then
      match Debugf h e.call s.log "doRotate run %v %v" [Value.date nowDate, Value.date e.loggingToday] with
      | none => none
      | some l => some (doRotate h e { s with log := l })
    else some s

/-- How a run of the consumer stands. -/
inductive Status where
  | running
  | blocked
  | exited
  | crashed
deriving DecidableEq, Repr

/-- The loop of logworker: one tick per received message; it leaves the loop when the
channel is closed and empty, and waits when it is open and empty. -/
def logworker (h : Host) : List Tick → State → Status × State
  | [], s =>
    match s.log.msgQueue with
    | [] => (if s.log.queueClosed then Status.exited else Status.blocked, s)
    | _ :: _ => (Status.running, s)
  | e :: es, s =>
    match s.log.msgQueue with
    | [] => (if s.log.queueClosed then Status.exited else Status.blocked, s)
    | msg :: rest =>
      match logworkerBody h e { s with log := { s.log with msgQueue := rest } } msg with
      | none => (Status.crashed, s)
      | some s => logworker h es s

/-! ## Construction -/

/-- The constructor, up to the start of the consumer; the panics are none. -/
def New (h : Host) (now : Int) (openOk : Bool) (w : World) (filename : String) (logFilePath logFunc : Bool)
    (level callerDepth logType : Int) : Option State :=
  let result : Logger :=
    { level := level, innerLogger := none, curFile := none, todaydate := formatDate h now,
      filename := filename, runtimeCaller := callerDepth, isLogFilePath := logFilePath,
      isLogFunc := logFunc, msgQueue := [], queueClosed := false, cancelled := false }
  if logType = FILE ∨ logType = FILESTDOUT then
    if filename = "" then none
    else
      match OpenFile openOk ⟨w.dir ++ "/logs/" ++ filename, none⟩ w with
      | (none, _) => none
      | (some logFile, w) =>
        let multi :=
          if logType = FILESTDOUT then [Target.file (some logFile), Target.stdout]
          else [Target.file (some logFile)]
        some ⟨{ result with curFile := some logFile, innerLogger := some multi }, w⟩
  else if logType = STDOUT then
    some ⟨{ result with innerLogger := some [Target.stdout] }, w⟩
  else some ⟨result, w⟩

/-- An empty world rooted at a directory. -/
def World.empty (dir : String) : World :=
  { dir := dir, fs := fun _ => none, console := [], closedFds := [], nextFd := 3,
    lines := [], trace := [] }

/-! ## Example inputs -/

/-- Print an argument the way the verb v does for strings; a date prints as its day number. -/
def Value.render : Value → String
  | Value.str s => s
  | Value.date d => toString d

/-- Replace each verb v of a template by the next argument. -/
def substVerbs : List Char → List Value → List Char
  | '%' :: 'v' :: cs, v :: vs => v.render.toList ++ substVerbs cs vs
  | c :: cs, vs => c :: substVerbs cs vs
  | [], _ => []

/-- A host for the examples: templates whose only verbs are v, operands printed one after
the other, and a stamp that shows the reading. -/
def exampleHost : Host :=
  { Sprintf := fun f vs => String.mk (substVerbs f.toList vs),
    Sprint := fun vs => String.join (vs.map Value.render),
    formatStamp := fun t => "T" ++ toString t ++ " ",
    utcOffset := fun _ => 0 }

/-- The example host in a zone that moves its clocks forward by one hour: five hours west
of UTC before the instant 1268550000 (07:00 UTC on day 14682), four hours west from then on. -/
def dstHost : Host :=
  { exampleHost with utcOffset := fun t => if t < 1268550000 then -18000 else -14400 }

/-- A stack on which runtime.Caller finds a frame at every depth from 0 to 3. -/
def exampleStack : Int → Option Frame :=
  fun d => if 0 ≤ d ∧ d ≤ 3 then some ⟨"main.main", "/src/app/main.go", 12⟩ else none

/-- The tag a method passes to getFormat. -/
def Method.tag : Method → String
  | .Debugf => "DEBUG "
  | .Debugln => "DEBUG "
  | .Infof => "INFO "
  | .Infoln => "INFO "
  | .Warningf => "WARNING "
  | .Warningln => "WARNING "
  | .Errorf => "ERROR "
  | .Errorln => "ERROR "

/-- The record a method hands to the channel. -/
def Method.record (m : Method) (h : Host) (c : Call) (logobj : Logger)
    (format : String) (args : List Value) : String :=
  match m with
  | .Debugf | .Infof | .Warningf | .Errorf => h.Sprintf (getFormat h c logobj m.tag format) args
  | .Debugln | .Infoln | .Warningln | .Errorln =>
    h.Sprint (Value.str (getFormat h c logobj m.tag "") :: args)

/-- The record the consumer builds when it finds that the day has changed. -/
def rotateRecord (h : Host) (e : Tick) (logobj : Logger) : String :=
  h.Sprintf (getFormat h e.call logobj "DEBUG " "doRotate run %v %v")
    [Value.date (formatDate h e.tCheck), Value.date e.loggingToday]

/-- A well-formed file-backed logger: it has a file name, its handle is open on the active
path and is what the sink writes to, descriptors are handed out in increasing order, and
the channel is closed only once the context is cancelled. -/
def FileBacked (s : State) : Prop :=
  s.log.filename ≠ "" ∧
  (∀ i ∈ s.world.closedFds, i < s.world.nextFd) ∧
  (s.log.queueClosed = true → s.log.cancelled = true) ∧
  match s.log.curFile with
  | none => False
  | some f =>
    f.name = activePath s ∧ f.fd ∉ s.world.closedFds ∧ f.fd < s.world.nextFd ∧
    (s.log.innerLogger = some [Target.file (some f)] ∨
      s.log.innerLogger = some [Target.file (some f), Target.stdout])

/-- The marker invariant at the end of an iteration: the last line of the active file, if
there is one, was written on the day of the marker. -/
def markerInv (s : State) : Prop :=
  ∀ c ln, s.world.fs (activePath s) = some c → c.getLast? = some ln → ln.day = s.log.todaydate

/-- A tick whose readings are all the same instant, with a successful open. -/
def tickAt (t : Int) : Tick :=
  { tWrite := t, tCheck := t, call := ⟨t, exampleStack⟩, loggingToday := 0,
    tRename := t, openOk := true, tMark := t, tSweep := t }

/-- The path of the active file of the file-backed examples. -/
def examplePath : Path := ⟨"/app/logs/app.log", none⟩

/-- The console logger New builds at time 0 with the given threshold, holding the given records. -/
def consoleState (level : Int) (queue : List String) : State :=
  { log :=
      { level := level, innerLogger := some [Target.stdout], curFile := none, todaydate := 0,
        filename := "", runtimeCaller := 3, isLogFilePath := true, isLogFunc := false,
        msgQueue := queue, queueClosed := false, cancelled := false },
    world := World.empty "/app" }

/-- The logger New builds at time 0 in the mode FILE for the file app.log. -/
def fileState : State :=
  { log :=
      { level := INFO, innerLogger := some [Target.file (some ⟨3, examplePath⟩)],
        curFile := some ⟨3, examplePath⟩, todaydate := 0,
        filename := "app.log", runtimeCaller := 3, isLogFilePath := true, isLogFunc := false,
        msgQueue := [], queueClosed := false, cancelled := false },
    world :=
      { dir := "/app", fs := fun q => if q = examplePath then some [] else none, console := [],
        closedFds := [], nextFd := 4, lines := [], trace := [] } }

/-- The same logger, its marker still day 0, when the active file holds one line and files
of dates 0 and -4 are already there. -/
def fileStateOld : State :=
  { fileState with
    world := { fileState.world with
      fs := fun q =>
        if q = examplePath then some [⟨"new\n", 0⟩]
        else if q = ⟨"/app/logs/app.log", some 0⟩ then some [⟨"old\n", 0⟩]
        else if q = ⟨"/app/logs/app.log", some (-4)⟩ then some [⟨"stale\n", -4⟩]
        else none } }

/-! ## The facade: level gate and close -/

/-- When runtime.Caller succeeds, getFormat is stamp, tag, location, template. -/
theorem getFormat_of_frame (h : Host) (c : Call) (l : Logger) (tag format : String) (fr : Frame)
    (hfr : c.stack l.runtimeCaller = some fr) :
    ∃ loc, getFormat h c l tag format = h.formatStamp c.now ++ tag ++ loc ++ format := by
  unfold getFormat
  rw [hfr]
  by_cases hp : l.isLogFilePath = true <;> by_cases hf : l.isLogFunc = true
  · exact ⟨Base fr.file ++ ":" ++ toString fr.line ++ " " ++ fr.funcName ++ " ", by
      simp [hp, hf, String.append_assoc]⟩
  · exact ⟨Base fr.file ++ ":" ++ toString fr.line ++ " ", by
      simp [hp, hf, String.append_assoc]⟩
  · exact ⟨fr.funcName ++ " ", by simp [hp, hf, String.append_assoc]⟩
  · exact ⟨"", by simp [hp, hf]⟩

/-- C1: on an open logger with threshold T, each of the eight facade methods of severity L
appends exactly one record (the one the method builds) when L >= T and leaves the logger as it
is when L < T; with T = ERROR the calls Debug, Info, Warning, Error append one record, the
one of the Error call, whose template carries the ERROR tag after the stamp whenever the
stack capture succeeds. -/
theorem C1_level_gate (h : Host) (l : Logger)
    (hctx : l.cancelled = false) (hq : l.queueClosed = false) :
    (∀ (m : Method) (c : Call) (format : String) (args : List Value),
      (l.level ≤ m.severity →
        m.call h c l format args
          = some { l with msgQueue := l.msgQueue ++ [m.record h c l format args] }) ∧
      (m.severity < l.level → m.call h c l format args = some l)) ∧
    (l.level = ERROR →
      ∀ (c1 c2 c3 c4 : Call) (x y : String) (a1 a2 a3 a4 : List Value),
        ((Debugf h c1 l x a1).bind fun l1 =>
          (Infof h c2 l1 x a2).bind fun l2 =>
            (Warningf h c3 l2 x a3).bind fun l3 => Errorf h c4 l3 y a4)
          = some { l with msgQueue :=
              l.msgQueue ++ [h.Sprintf (getFormat h c4 l "ERROR " y) a4] } ∧
        ∀ fr, c4.stack l.runtimeCaller = some fr →
          ∃ loc, getFormat h c4 l "ERROR " y
            = h.formatStamp c4.now ++ "ERROR " ++ loc ++ y) := by
  refine ⟨?_, ?_⟩
  · intro m c format args
    constructor
    · intro hle
      cases m <;>
        simp only [Method.severity, DEBUG, INFO, WARNING, ERROR] at hle <;>
        simp [Method.call, Method.record, Method.tag, Debugf, Debugln, Infof, Infoln, Warningf,
          Warningln, Errorf, Errorln, send, hctx, hq, DEBUG, INFO, WARNING, ERROR, not_lt.mpr hle]
    · intro hlt
      cases m <;>
        simp only [Method.severity, DEBUG, INFO, WARNING, ERROR] at hlt <;>
        simp [Method.call, Debugf, Debugln, Infof, Infoln, Warningf,
          Warningln, Errorf, Errorln, DEBUG, INFO, WARNING, ERROR, hlt]
  · intro hlev c1 c2 c3 c4 x y a1 a2 a3 a4
    refine ⟨?_, fun fr hfr => getFormat_of_frame h c4 l "ERROR " y fr hfr⟩
    simp [Debugf, Infof, Warningf, Errorf, send, hctx, hq, hlev, DEBUG, INFO, WARNING, ERROR]

/-! ## Frame lemmas for the world operations -/

theorem writeAll_frame (ln : Line) (ts : List Target) (w : World) :
    (writeAll w ln ts).lines = w.lines ∧ (writeAll w ln ts).trace = w.trace ∧
    (writeAll w ln ts).dir = w.dir ∧ (writeAll w ln ts).closedFds = w.closedFds ∧
    (writeAll w ln ts).nextFd = w.nextFd := by
  induction ts generalizing w with
  | nil => simp [writeAll]
  | cons t ts ih =>
    cases t with
    | stdout => simpa [writeAll] using ih _
    | file f =>
      cases f with
      | none => simp [writeAll]
      | some f =>
        by_cases hc : f.fd ∈ w.closedFds
        · simp [writeAll, hc]
        · simpa [writeAll, hc] using ih _

@[simp] theorem enterRotate_log (s : State) : (enterRotate s).log = s.log := rfl

@[simp] theorem enterRotate_world (s : State) :
    (enterRotate s).world = { s.world with trace := s.world.trace ++ [Event.rotate] } := rfl

@[simp] theorem setMarker_world (h : Host) (e : Tick) (s : State) : (setMarker h e s).world = s.world := rfl

@[simp] theorem setMarker_log (h : Host) (e : Tick) (s : State) :
    (setMarker h e s).log = { s.log with todaydate := formatDate h e.tMark } := rfl

@[simp] theorem deleteHistory_log (h : Host) (e : Tick) (s : State) : (deleteHistory h e s).log = s.log := by
  unfold deleteHistory
  split <;> rfl

theorem deleteHistory_world (h : Host) (e : Tick) (s : State) :
    (deleteHistory h e s).world.lines = s.world.lines ∧
    (deleteHistory h e s).world.dir = s.world.dir ∧
    (deleteHistory h e s).world.console = s.world.console ∧
    (deleteHistory h e s).world.closedFds = s.world.closedFds ∧
    (deleteHistory h e s).world.nextFd = s.world.nextFd := by
  unfold deleteHistory
  split <;> simp

theorem Rename_frame (src dst : Path) (w : World) :
    (Rename src dst w).lines = w.lines ∧ (Rename src dst w).dir = w.dir ∧
    (Rename src dst w).console = w.console ∧ (Rename src dst w).closedFds = w.closedFds ∧
    (Rename src dst w).nextFd = w.nextFd := by
  unfold Rename
  split <;> simp

theorem OpenFile_frame (ok : Bool) (p : Path) (w : World) :
    (OpenFile ok p w).2.lines = w.lines ∧ (OpenFile ok p w).2.dir = w.dir ∧
    (OpenFile ok p w).2.console = w.console ∧ (OpenFile ok p w).2.closedFds = w.closedFds ∧
    (OpenFile ok p w).2.trace = w.trace := by
  unfold OpenFile
  split <;> simp

@[simp] theorem closeAndRename_log (h : Host) (e : Tick) (f : File) (s : State) :
    (closeAndRename h e f s).log = s.log := by
  unfold closeAndRename
  split <;> rfl

theorem closeAndRename_world (h : Host) (e : Tick) (f : File) (s : State) :
    (closeAndRename h e f s).world.lines = s.world.lines ∧
    (closeAndRename h e f s).world.dir = s.world.dir ∧
    (closeAndRename h e f s).world.console = s.world.console ∧
    (closeAndRename h e f s).world.nextFd = s.world.nextFd := by
  unfold closeAndRename
  split
  · simp [Rename_frame, closeFile]
  · simp

theorem reopen_log (e : Tick) (s : State) :
    (reopen e s).log.msgQueue = s.log.msgQueue ∧
    (reopen e s).log.cancelled = s.log.cancelled ∧
    (reopen e s).log.queueClosed = s.log.queueClosed ∧
    (reopen e s).log.level = s.log.level ∧
    (reopen e s).log.filename = s.log.filename ∧
    (reopen e s).log.todaydate = s.log.todaydate ∧
    (s.log.innerLogger.isSome = true → (reopen e s).log.innerLogger.isSome = true) := by
  unfold reopen
  split <;> simp

theorem reopen_world (e : Tick) (s : State) :
    (reopen e s).world.lines = s.world.lines ∧
    (reopen e s).world.dir = s.world.dir ∧
    (reopen e s).world.console = s.world.console ∧
    (reopen e s).world.closedFds = s.world.closedFds ∧
    (reopen e s).world.trace = s.world.trace := by
  unfold reopen
  split
  · simp [OpenFile_frame]
  · simp

/-- Rotation touches neither the channel, the context, the threshold, the file name nor
the history of lines handed to the sink; the sink stays non-nil. -/
theorem doRotate_frame (h : Host) (e : Tick) (s : State) :
    (doRotate h e s).log.msgQueue = s.log.msgQueue ∧
    (doRotate h e s).log.cancelled = s.log.cancelled ∧
    (doRotate h e s).log.queueClosed = s.log.queueClosed ∧
    (doRotate h e s).log.level = s.log.level ∧
    (doRotate h e s).log.filename = s.log.filename ∧
    (doRotate h e s).world.lines = s.world.lines ∧
    (doRotate h e s).world.dir = s.world.dir ∧
    (doRotate h e s).world.console = s.world.console ∧
    (s.log.innerLogger.isSome = true → (doRotate h e s).log.innerLogger.isSome = true) := by
  unfold doRotate
  cases hcur : s.log.curFile with
  | none => simp
  | some prefile =>
    simp only [deleteHistory_log, setMarker_log, deleteHistory_world, setMarker_world,
      reopen_log, reopen_world, closeAndRename_log, closeAndRename_world, enterRotate_log,
      enterRotate_world, true_and]
    intro hs
    exact (reopen_log e _).2.2.2.2.2.2 (by simpa using hs)

/-! ## Draining after Close -/

theorem doRotate_console (h : Host) (e : Tick) (s : State) (hcur : s.log.curFile = none) :
    (doRotate h e s).log = s.log ∧
    (doRotate h e s).world = { s.world with trace := s.world.trace ++ [Event.rotate] } := by
  unfold doRotate
  simp [hcur]

/-- One iteration on a cancelled logger with a sink: it cannot panic, hands exactly the
message to the sink and leaves the channel as it is. -/
theorem logworkerBody_cancelled (h : Host) (e : Tick) (s : State) (msg : String)
    (hctx : s.log.cancelled = true) (hout : s.log.innerLogger.isSome = true) :
    ∃ s', logworkerBody h e s msg = some s' ∧
      s'.log.msgQueue = s.log.msgQueue ∧ s'.log.cancelled = true ∧
      s'.log.queueClosed = s.log.queueClosed ∧ s'.log.innerLogger.isSome = true ∧
      s'.world.lines = s.world.lines ++ [msg] ∧
      (s.log.curFile = none → s.log.innerLogger = some [Target.stdout] →
        s'.log.curFile = none ∧ s'.log.innerLogger = some [Target.stdout] ∧
        s'.world.console = s.world.console ++ [msg ++ "\n"]) := by
  obtain ⟨out, hout'⟩ := Option.isSome_iff_exists.mp hout
  have hdbg : ∀ (l : Logger) (f : String) (v : List Value), l.cancelled = true →
      Debugf h e.call l f v = some l := by
    intro l f v hl
    unfold Debugf
    by_cases hlev : l.level > DEBUG <;> simp [hlev, hl]
  unfold logworkerBody Println
  simp only [hout']
  by_cases hday : formatDate h e.tCheck = s.log.todaydate
  · simp [hday, hctx, hout', (writeAll_frame _ out _).1]
    intro hcur ho
    cases ho
    simp [writeAll, hcur]
  · simp only [ne_eq, hday, not_false_eq_true, ↓reduceIte, hdbg _ _ _ hctx]
    refine ⟨_, rfl, ?_⟩
    simp only [doRotate_frame, hctx, hout', Option.isSome_some, (writeAll_frame _ out _).1,
      true_and, forall_true_left]
    intro hcur ho
    cases ho
    simp [doRotate_console, hcur, hout', writeAll]

theorem logworker_drain (h : Host) (recs : List String) :
    ∀ (es : List Tick) (s : State), s.log.msgQueue = recs → s.log.cancelled = true →
      s.log.queueClosed = true → s.log.innerLogger.isSome = true →
      (recs.length ≤ es.length →
        (logworker h es s).1 = Status.exited ∧ (logworker h es s).2.log.msgQueue = [] ∧
        (logworker h es s).2.world.lines = s.world.lines ++ recs ∧
        (s.log.curFile = none → s.log.innerLogger = some [Target.stdout] →
          (logworker h es s).2.world.console
            = s.world.console ++ recs.map (fun r => r ++ "\n"))) ∧
      (es.length < recs.length →
        (logworker h es s).1 = Status.running ∧
        (logworker h es s).2.world.lines = s.world.lines ++ recs.take es.length) := by
  induction recs with
  | nil =>
    intro es s hq hctx hcl hout
    cases es <;> simp [logworker, hq, hcl]
  | cons r recs ih =>
    intro es s hq hctx hcl hout
    cases es with
    | nil => simp [logworker, hq]
    | cons e es =>
      obtain ⟨s', hs', hq', hctx', hcl', hout', hlines, hcons⟩ :=
        logworkerBody_cancelled h e { s with log := { s.log with msgQueue := recs } } r
          (by simpa using hctx) (by simpa using hout)
      have hrun : logworker h (e :: es) s = logworker h es s' := by
        simp [logworker, hq, hs']
      have := ih es s' (by simpa using hq') hctx' (by simpa [hcl] using hcl') hout'
      rw [hrun]
      constructor
      · intro hlen
        obtain ⟨h1, h2, h3, h4⟩ := this.1 (by simpa using hlen)
        refine ⟨h1, h2, ?_, ?_⟩
        · rw [h3, hlines]; simp
        · intro hcur ho
          obtain ⟨c1, c2, c3⟩ := hcons (by simpa using hcur) (by simpa using ho)
          rw [h4 c1 c2, c3]; simp
      · intro hlen
        obtain ⟨h1, h2⟩ := this.2 (by simpa using hlen)
        refine ⟨h1, ?_⟩
        rw [h2, hlines]; simp

/-- C2: when Close is called on an open logger whose channel holds the records recs and the
consumer then runs, it leaves the loop once it has been given as many iterations as there are
records, having handed to the sink exactly recs, each once and in the order of the channel
(on a console logger they are the lines printed); given fewer iterations it is still running
and has handed over the first of them only. -/
theorem C2_close_drains_in_order (h : Host) (s : State) (l' : Logger) (es : List Tick)
    (hout : s.log.innerLogger.isSome = true) (hclose : Close s.log = some l') :
    (s.log.msgQueue.length ≤ es.length →
      (logworker h es { s with log := l' }).1 = Status.exited ∧
      (logworker h es { s with log := l' }).2.log.msgQueue = [] ∧
      (logworker h es { s with log := l' }).2.world.lines = s.world.lines ++ s.log.msgQueue ∧
      (s.log.curFile = none → s.log.innerLogger = some [Target.stdout] →
        (logworker h es { s with log := l' }).2.world.console
          = s.world.console ++ s.log.msgQueue.map (fun r => r ++ "\n"))) ∧
    (es.length < s.log.msgQueue.length →
      (logworker h es { s with log := l' }).1 = Status.running ∧
      (logworker h es { s with log := l' }).2.world.lines
        = s.world.lines ++ s.log.msgQueue.take es.length) := by
  unfold Close at hclose
  by_cases hq : s.log.queueClosed = true
  · simp [hq] at hclose
  · simp only [hq, Bool.false_eq_true, ↓reduceIte, Option.some.injEq] at hclose
    subst hclose
    simpa using logworker_drain h s.log.msgQueue es
      { s with log := { s.log with cancelled := true, queueClosed := true } } rfl rfl rfl
      (by simpa using hout)

/-- C8: once Close has completed, every facade method, whatever its level and arguments,
returns normally and leaves the logger, its channel included, exactly as it was. -/
theorem C8_no_enqueue_after_close (h : Host) (l l' : Logger) (hclose : Close l = some l')
    (m : Method) (c : Call) (format : String) (args : List Value) :
    m.call h c l' format args = some l' ∧ l'.msgQueue = l.msgQueue := by
  unfold Close at hclose
  by_cases hq : l.queueClosed = true
  · simp [hq] at hclose
  · simp only [hq, Bool.false_eq_true, ↓reduceIte, Option.some.injEq] at hclose
    subst hclose
    refine ⟨?_, rfl⟩
    cases m <;>
      simp [Method.call, Debugf, Debugln, Infof, Infoln, Warningf, Warningln, Errorf, Errorln]

/-- C7: when runtime.Caller fails at the configured depth, getFormat returns the template
alone: the stamp and the tag written to the buffer are dropped with the buffer. -/
theorem C7_getFormat_capture_failure (h : Host) (c : Call) (l : Logger) (tag format : String)
    (hfail : c.stack l.runtimeCaller = none) :
    getFormat h c l tag format = format := by
  unfold getFormat
  rw [hfail]

/-! ## The consumer feeding its own channel -/

theorem getFormat_msgQueue (h : Host) (c : Call) (l : Logger) (q : List String)
    (tag format : String) :
    getFormat h c { l with msgQueue := q } tag format = getFormat h c l tag format := rfl

theorem Debugf_open (h : Host) (c : Call) (l : Logger) (f : String) (v : List Value)
    (hlev : l.level ≤ DEBUG) (hctx : l.cancelled = false) (hq : l.queueClosed = false) :
    Debugf h c l f v
      = some { l with msgQueue := l.msgQueue ++ [h.Sprintf (getFormat h c l "DEBUG " f) v] } := by
  simp [Debugf, send, hctx, hq, not_lt.mpr hlev]

theorem logworkerBody_console_feed (h : Host) (e : Tick) (s : State) (msg : String)
    (hcur : s.log.curFile = none) (hout : s.log.innerLogger.isSome = true)
    (hlev : s.log.level ≤ DEBUG) (hctx : s.log.cancelled = false)
    (hq : s.log.queueClosed = false) (hday : formatDate h e.tCheck ≠ s.log.todaydate) :
    ∃ s', logworkerBody h e s msg = some s' ∧
      s'.log = { s.log with msgQueue := s.log.msgQueue ++ [rotateRecord h e s.log] } := by
  obtain ⟨out, hout'⟩ := Option.isSome_iff_exists.mp hout
  unfold logworkerBody Println
  simp only [hout', ne_eq, hday, not_false_eq_true, ↓reduceIte]
  rw [Debugf_open h e.call s.log _ _ hlev hctx hq]
  refine ⟨_, rfl, ?_⟩
  have hr : ∀ st : State, st.log.curFile = none → (doRotate h e st).log = st.log :=
    fun st hc => (doRotate_console h e st hc).1
  rw [hr]
  · simp [rotateRecord, hout', getFormat_msgQueue]
  · exact hcur

theorem logworkerBody_quiet (h : Host) (e : Tick) (s s' : State) (msg : String)
    (hlev : s.log.level > DEBUG) (hs : logworkerBody h e s msg = some s') :
    s'.log.msgQueue = s.log.msgQueue ∧ s'.log.level = s.log.level := by
  unfold logworkerBody Println at hs
  cases hout : s.log.innerLogger with
  | none => simp [hout] at hs
  | some out =>
    simp only [hout] at hs
    by_cases hday : formatDate h e.tCheck = s.log.todaydate
    · simp [hday] at hs
      subst hs
      simp
    · simp only [ne_eq, hday, not_false_eq_true, ↓reduceIte, Debugf, hlev,
        Option.some.injEq] at hs
      subst hs
      simp [doRotate_frame]

theorem logworker_feed (h : Host) :
    ∀ (es : List Tick) (s : State), s.log.curFile = none → s.log.innerLogger.isSome = true →
      s.log.level ≤ DEBUG → s.log.cancelled = false → s.log.queueClosed = false →
      s.log.msgQueue ≠ [] → (∀ e ∈ es, formatDate h e.tCheck ≠ s.log.todaydate) →
      (logworker h es s).1 = Status.running ∧
      (logworker h es s).2.log.msgQueue.length = s.log.msgQueue.length ∧
      (logworker h es s).2.log.todaydate = s.log.todaydate := by
  intro es
  induction es with
  | nil =>
    intro s _ _ _ _ _ hne _
    cases hqu : s.log.msgQueue with
    | nil => exact absurd hqu hne
    | cons m r => simp [logworker, hqu]
  | cons e es ih =>
    intro s hcur hout hlev hctx hq hne hdays
    cases hqu : s.log.msgQueue with
    | nil => exact absurd hqu hne
    | cons m r =>
      obtain ⟨s', hs', hlog⟩ := logworkerBody_console_feed h e
        { s with log := { s.log with msgQueue := r } } m hcur hout hlev hctx hq
        (hdays e (List.mem_cons_self _ _))
      have hrun : logworker h (e :: es) s = logworker h es s' := by
        simp [logworker, hqu, hs']
      rw [hrun]
      have := ih s' (by rw [hlog]; exact hcur) (by rw [hlog]; exact hout)
        (by rw [hlog]; exact hlev) (by rw [hlog]; exact hctx) (by rw [hlog]; exact hq)
        (by rw [hlog]; simp)
        (fun e' he' => by rw [hlog]; exact hdays e' (List.mem_cons_of_mem _ he'))
      rw [hlog] at this
      simpa using this

theorem logworker_quiet (h : Host) :
    ∀ (es : List Tick) (t : State), t.log.level > DEBUG →
      (logworker h es t).2.log.msgQueue <:+ t.log.msgQueue := by
  intro es
  induction es with
  | nil =>
    intro t _
    cases hqu : t.log.msgQueue <;> simp [logworker, hqu]
  | cons e es ih =>
    intro t hlev
    cases hqu : t.log.msgQueue with
    | nil => simp [logworker, hqu]
    | cons m r =>
      cases hb : logworkerBody h e { t with log := { t.log with msgQueue := r } } m with
      | none => simp [logworker, hqu, hb]
      | some t' =>
        have hq := logworkerBody_quiet h e _ t' m (by simpa using hlev) hb
        have := ih t' (by rw [hq.2]; simpa using hlev)
        have hrun : logworker h (e :: es) t = logworker h es t' := by
          simp [logworker, hqu, hb]
        rw [hrun]
        refine this.trans ?_
        rw [hq.1]
        exact List.suffix_cons m r

/-- C10: on an open logger without a file handle and with threshold at most DEBUG, an
iteration of the consumer made on a day other than the marker takes one record from the
channel, appends the record doRotate run and leaves the marker as it is; so from a non-empty
channel, however many iterations are made on such days, the consumer is still running, the
channel is as long as before and never empty, the marker unchanged.  With a threshold above
DEBUG the consumer never appends: the channel after a run is a suffix of the channel before. -/
theorem C10_consumer_feeds_own_queue (h : Host) (s : State)
    (hcur : s.log.curFile = none) (hout : s.log.innerLogger.isSome = true)
    (hlev : s.log.level ≤ DEBUG) (hctx : s.log.cancelled = false)
    (hq : s.log.queueClosed = false) :
    (∀ (e : Tick) (msg : String) (rest : List String), s.log.msgQueue = msg :: rest →
      formatDate h e.tCheck ≠ s.log.todaydate →
      (logworker h [e] s).1 = Status.running ∧
      (logworker h [e] s).2.log
        = { s.log with msgQueue := rest ++ [rotateRecord h e s.log] }) ∧
    (∀ es : List Tick, s.log.msgQueue ≠ [] →
      (∀ e ∈ es, formatDate h e.tCheck ≠ s.log.todaydate) →
      (logworker h es s).1 = Status.running ∧
      (logworker h es s).2.log.msgQueue.length = s.log.msgQueue.length ∧
      (logworker h es s).2.log.msgQueue ≠ [] ∧
      (logworker h es s).2.log.todaydate = s.log.todaydate) ∧
    (∀ (es : List Tick) (t : State), t.log.level > DEBUG →
      (logworker h es t).2.log.msgQueue <:+ t.log.msgQueue) := by
  refine ⟨?_, ?_, logworker_quiet h⟩
  · intro e msg rest hqu hday
    obtain ⟨s', hs', hlog⟩ := logworkerBody_console_feed h e
      { s with log := { s.log with msgQueue := rest } } msg hcur hout hlev hctx hq hday
    have hrun : logworker h [e] s = logworker h [] s' := by
      simp [logworker, hqu, hs']
    have hne : s'.log.msgQueue = rest ++ [rotateRecord h e s.log] := by
      rw [hlog]; rfl
    rw [hrun]
    cases hq' : s'.log.msgQueue with
    | nil => simp [hq'] at hne
    | cons a b =>
      simp only [logworker, hq']
      exact ⟨trivial, by rw [hlog]; rfl⟩
  · intro es hne hdays
    obtain ⟨h1, h2, h3⟩ := logworker_feed h es s hcur hout hlev hctx hq hne hdays
    refine ⟨h1, h2, ?_, h3⟩
    intro hnil
    rw [hnil] at h2
    exact hne (List.length_eq_zero.mp h2.symm)

/-! ## Rotation on a logger without a file handle -/

theorem Debugf_total (h : Host) (c : Call) (l : Logger) (f : String) (v : List Value)
    (hchan : l.queueClosed = true → l.cancelled = true) :
    ∃ q, Debugf h c l f v = some { l with msgQueue := q } ∧ l.msgQueue.length ≤ q.length := by
  unfold Debugf send
  by_cases hlev : l.level > DEBUG
  · exact ⟨l.msgQueue, by rw [if_pos hlev], le_refl _⟩
  · by_cases hctx : l.cancelled = true
    · exact ⟨l.msgQueue, by rw [if_neg hlev]; dsimp only; rw [if_pos hctx], le_refl _⟩
    · have hq : ¬ l.queueClosed = true := fun hq => hctx (hchan hq)
      exact ⟨_, by rw [if_neg hlev]; dsimp only; rw [if_neg hctx, if_neg hq], by simp⟩

theorem logworkerBody_console (h : Host) (e : Tick) (s : State) (msg : String)
    (hcur : s.log.curFile = none) (hout : s.log.innerLogger.isSome = true)
    (hchan : s.log.queueClosed = true → s.log.cancelled = true)
    (hday : formatDate h e.tCheck ≠ s.log.todaydate) :
    ∃ s', logworkerBody h e s msg = some s' ∧ s'.log.curFile = none ∧
      s'.log.innerLogger = s.log.innerLogger ∧ s'.log.todaydate = s.log.todaydate ∧
      s'.log.queueClosed = s.log.queueClosed ∧ s'.log.cancelled = s.log.cancelled ∧
      s.log.msgQueue.length ≤ s'.log.msgQueue.length ∧
      s'.world.trace = s.world.trace ++ [Event.rotate] := by
  obtain ⟨out, hout'⟩ := Option.isSome_iff_exists.mp hout
  obtain ⟨q, hd, hlen⟩ := Debugf_total h e.call s.log "doRotate run %v %v"
    [Value.date (formatDate h e.tCheck), Value.date e.loggingToday] hchan
  unfold logworkerBody Println
  simp only [hout', ne_eq, hday, not_false_eq_true, ↓reduceIte, hd]
  refine ⟨_, rfl, ?_⟩
  simp [doRotate_console, hcur, hout', hlen, (writeAll_frame _ out _).2.1]

/-- C3: on a logger without a file handle, every record drained on a day other than the
marker enters the rotation step and the marker is left as it was: draining N records on such
days makes N rotation steps, not one, and the marker never becomes that day. -/
theorem C3_console_rotation_every_record (h : Host) (es : List Tick) (s : State)
    (hcur : s.log.curFile = none) (hout : s.log.innerLogger.isSome = true)
    (hchan : s.log.queueClosed = true → s.log.cancelled = true)
    (hlen : es.length ≤ s.log.msgQueue.length)
    (hdays : ∀ e ∈ es, formatDate h e.tCheck ≠ s.log.todaydate) :
    (logworker h es s).2.world.trace
      = s.world.trace ++ List.replicate es.length Event.rotate ∧
    (logworker h es s).2.log.todaydate = s.log.todaydate := by
  induction es generalizing s with
  | nil =>
    cases hqu : s.log.msgQueue <;> simp [logworker, hqu]
  | cons e es ih =>
    cases hqu : s.log.msgQueue with
    | nil => simp [hqu] at hlen
    | cons m r =>
      obtain ⟨s', hs', c1, c2, c3, c4, c5, c6, c7⟩ := logworkerBody_console h e
        { s with log := { s.log with msgQueue := r } } m hcur hout hchan
        (hdays e (List.mem_cons_self _ _))
      have hrun : logworker h (e :: es) s = logworker h es s' := by
        simp [logworker, hqu, hs']
      have hlen' : es.length ≤ s'.log.msgQueue.length := by
        rw [hqu] at hlen
        simp only [List.length_cons, Nat.add_le_add_iff_right] at hlen
        exact le_trans hlen c6
      have := ih s' c1 (by rw [c2]; exact hout) (by rw [c4, c5]; exact hchan) hlen'
        (fun e' he' => by rw [c3]; exact hdays e' (List.mem_cons_of_mem _ he'))
      rw [hrun, this.1, this.2, c7, c3]
      simp [List.replicate_succ]

/-! ## Rotation on a file-backed logger: names and files -/

/-- When the offset in force 24 hours earlier is the one in force now, the local date of
24 hours earlier is the day before. -/
theorem formatDate_sub_day (h : Host) (t : Int)
    (ho : h.utcOffset (t + (-1) * hours24) = h.utcOffset t) :
    formatDate h (t + (-1) * hours24) = formatDate h t - 1 := by
  unfold formatDate
  rw [ho]
  show ((t + (-1) * 86400 + h.utcOffset t) / 86400 : Int) = (t + h.utcOffset t) / 86400 - 1
  omega

/-- When the offset in force five times 24 hours earlier is the one in force now, the local
date of that instant is five days before. -/
theorem formatDate_sub_five (h : Host) (t : Int)
    (ho : h.utcOffset (t + (-1) * hours24 * 5) = h.utcOffset t) :
    formatDate h (t + (-1) * hours24 * 5) = formatDate h t - 5 := by
  unfold formatDate
  rw [ho]
  show ((t + (-1) * 86400 * 5 + h.utcOffset t) / 86400 : Int) = (t + h.utcOffset t) / 86400 - 5
  omega

theorem rotatedPath_eq (h : Host) (e : Tick) (s : State) :
    rotatedPath h e s
      = ⟨(activePath s).base, some (formatDate h (e.tRename + (-1) * hours24))⟩ := rfl

theorem historyPath_eq (h : Host) (e : Tick) (s : State) :
    historyPath h e s
      = ⟨(activePath s).base, some (formatDate h (e.tSweep + (-1) * hours24 * 5))⟩ := rfl

theorem paths_congr (h : Host) (e : Tick) (s t : State) (hd : t.world.dir = s.world.dir)
    (hf : t.log.filename = s.log.filename) :
    activePath t = activePath s ∧ rotatedPath h e t = rotatedPath h e s ∧
    historyPath h e t = historyPath h e s := by
  simp [activePath, rotatedPath, historyPath, hd, hf]

theorem deleteHistory_fs (h : Host) (e : Tick) (s : State) (q : Path) :
    (deleteHistory h e s).world.fs q = if q = historyPath h e s then none else s.world.fs q := by
  unfold deleteHistory
  cases hh : s.world.fs (historyPath h e s) with
  | none =>
    by_cases hq : q = historyPath h e s
    · simp [hq, hh]
    · simp [hq]
  | some c => simp

theorem deleteHistory_trace (h : Host) (e : Tick) (s : State) :
    ∃ tail, (deleteHistory h e s).world.trace = s.world.trace ++ tail ∧
      ∀ ev ∈ tail, ∃ p, ev = Event.remove p := by
  unfold deleteHistory
  cases hh : s.world.fs (historyPath h e s) with
  | none => exact ⟨[], by simp⟩
  | some c => exact ⟨[Event.remove (historyPath h e s)], by simp⟩

theorem reopen_fs (e : Tick) (s : State) (q : Path) :
    (reopen e s).world.fs q
      = if s.log.filename ≠ "" ∧ e.openOk = true ∧ q = activePath s
        then some ((s.world.fs (activePath s)).getD []) else s.world.fs q := by
  unfold reopen OpenFile
  by_cases hfn : s.log.filename = ""
  · simp [hfn]
  · by_cases hok : e.openOk = true
    · by_cases hq : q = activePath s
      · simp [hfn, hok, hq]
      · simp [hfn, hok, hq]
    · simp [hfn, hok]

theorem closeAndRename_fs (h : Host) (e : Tick) (f : File) (s : State) (q : Path)
    (hst : statOk f s.world = true) :
    (closeAndRename h e f s).world.fs q
      = match s.world.fs (activePath s) with
        | none => s.world.fs q
        | some c =>
          if q = rotatedPath h e s then some c
          else if q = activePath s then none else s.world.fs q := by
  unfold closeAndRename Rename closeFile
  simp only [hst, ↓reduceIte]
  cases hh : s.world.fs (activePath s) <;> simp

theorem closeAndRename_trace (h : Host) (e : Tick) (f : File) (s : State)
    (hst : statOk f s.world = true) :
    (closeAndRename h e f s).world.trace
      = s.world.trace
        ++ [Event.rename (activePath s) (rotatedPath h e s) (s.world.fs (activePath s)).isSome] := by
  unfold closeAndRename Rename closeFile
  simp only [hst, ↓reduceIte]
  cases hh : s.world.fs (activePath s) <;> simp

theorem closeAndRename_skip (h : Host) (e : Tick) (f : File) (s : State)
    (hst : ¬ statOk f s.world = true) : closeAndRename h e f s = s := by
  unfold closeAndRename
  simp [hst]

/-- The files after a rotation step of a logger with a file handle, path by path. -/
theorem doRotate_fs (h : Host) (e : Tick) (s : State) (f : File) (hcur : s.log.curFile = some f)
    (q : Path) :
    (doRotate h e s).world.fs q
      = if q = historyPath h e s then none
        else if s.log.filename ≠ "" ∧ e.openOk = true ∧ q = activePath s
        then some (((closeAndRename h e f (enterRotate s)).world.fs (activePath s)).getD [])
        else (closeAndRename h e f (enterRotate s)).world.fs q := by
  have h1 := paths_congr h e s (closeAndRename h e f (enterRotate s))
    (by simp [(closeAndRename_world h e f _).2.1]) (by simp)
  have h2 := paths_congr h e s (setMarker h e (reopen e (closeAndRename h e f (enterRotate s))))
    (by simp [(reopen_world e _).2.1, (closeAndRename_world h e f _).2.1])
    (by simp [(reopen_log e _).2.2.2.2.1])
  unfold doRotate
  simp only [hcur]
  rw [deleteHistory_fs, h2.2.2, setMarker_world, reopen_fs, h1.1]
  simp

theorem doRotate_trace (h : Host) (e : Tick) (s : State) (f : File) (hcur : s.log.curFile = some f)
    (hst : statOk f s.world = true) :
    ∃ tail, (doRotate h e s).world.trace
        = s.world.trace
          ++ [Event.rotate,
              Event.rename (activePath s) (rotatedPath h e s) (s.world.fs (activePath s)).isSome]
          ++ tail ∧
      ∀ ev ∈ tail, ∃ p, ev = Event.remove p := by
  obtain ⟨tail, ht, hall⟩ :=
    deleteHistory_trace h e (setMarker h e (reopen e (closeAndRename h e f (enterRotate s))))
  refine ⟨tail, ?_, hall⟩
  unfold doRotate
  simp only [hcur]
  rw [ht, setMarker_world, (reopen_world e _).2.2.2.2,
    closeAndRename_trace h e f (enterRotate s) hst]
  simp [activePath, rotatedPath]

theorem path_dated_ne_active (s : State) (j : Int) :
    (⟨(activePath s).base, some j⟩ : Path) ≠ activePath s := by
  intro h
  have := congrArg Path.date h
  simp [activePath] at this

theorem path_dated_ne (b : String) (i j : Int) (hij : i ≠ j) :
    (⟨b, some i⟩ : Path) ≠ ⟨b, some j⟩ := by
  intro h
  injection h with _ h2
  injection h2 with h3
  exact hij h3

/-- The renamed file holds what the active file held, unless the sweep of the same step
removes it. -/
theorem doRotate_rotated_fs (h : Host) (e : Tick) (s : State) (f : File)
    (hcur : s.log.curFile = some f) (hst : statOk f s.world = true) (c : List Line)
    (hc : s.world.fs (activePath s) = some c)
    (hne : historyPath h e s ≠ rotatedPath h e s) :
    (doRotate h e s).world.fs (rotatedPath h e s) = some c := by
  have hact : activePath (enterRotate s) = activePath s := rfl
  have hrot : rotatedPath h e (enterRotate s) = rotatedPath h e s := rfl
  have hfs : (enterRotate s).world.fs = s.world.fs := rfl
  have h2 : rotatedPath h e s ≠ activePath s := by
    rw [rotatedPath_eq]
    exact path_dated_ne_active s _
  rw [doRotate_fs h e s f hcur]
  simp only [Ne.symm hne, h2, ↓reduceIte, and_false]
  rw [closeAndRename_fs h e f (enterRotate s) _ hst, hact, hrot, hfs, hc]
  simp

/-- The active path after a rotation step with an open handle and a file name: a fresh
empty file when the open succeeds, nothing when it fails. -/
theorem doRotate_active_fs (h : Host) (e : Tick) (s : State) (f : File)
    (hcur : s.log.curFile = some f) (hst : statOk f s.world = true)
    (hfn : s.log.filename ≠ "") :
    (doRotate h e s).world.fs (activePath s) = if e.openOk = true then some [] else none := by
  have hact : activePath (enterRotate s) = activePath s := rfl
  have hrot : rotatedPath h e (enterRotate s) = rotatedPath h e s := rfl
  have hfs : (enterRotate s).world.fs = s.world.fs := rfl
  have h1 : activePath s ≠ historyPath h e s := by
    rw [historyPath_eq]
    exact (path_dated_ne_active s _).symm
  have h2 : activePath s ≠ rotatedPath h e s := by
    rw [rotatedPath_eq]
    exact (path_dated_ne_active s _).symm
  have hnone : (closeAndRename h e f (enterRotate s)).world.fs (activePath s) = none := by
    rw [closeAndRename_fs h e f (enterRotate s) _ hst, hact, hrot, hfs]
    cases hh : s.world.fs (activePath s) <;> simp [h2, hh]
  rw [doRotate_fs h e s f hcur, hnone]
  by_cases hok : e.openOk = true <;> simp [h1, hfn, hok]

/-- The files a rotation step leaves alone: all but the active path, the rename target and
the path of the sweep. -/
theorem doRotate_fs_frame (h : Host) (e : Tick) (s : State) (f : File)
    (hcur : s.log.curFile = some f) (q : Path) (h1 : q ≠ activePath s)
    (h2 : q ≠ rotatedPath h e s) (h3 : q ≠ historyPath h e s) :
    (doRotate h e s).world.fs q = s.world.fs q := by
  have hact : activePath (enterRotate s) = activePath s := rfl
  have hrot : rotatedPath h e (enterRotate s) = rotatedPath h e s := rfl
  have hfs : (enterRotate s).world.fs = s.world.fs := rfl
  rw [doRotate_fs h e s f hcur]
  simp only [h3, ↓reduceIte, h1, and_false]
  by_cases hst : statOk f s.world = true
  · rw [closeAndRename_fs h e f (enterRotate s) _ hst, hact, hrot, hfs]
    cases hh : s.world.fs (activePath s) <;> simp [h1, h2]
  · rw [closeAndRename_skip h e f (enterRotate s) hst, hfs]

/-- C4 (amended): a rotation step of a logger whose file handle is open renames the active
path to the active path followed by the local date of the instant 24 hours before the time
read in the step, whatever the marker is, and the renamed file holds what the active file
held. When the offset from UTC in force 24 hours earlier is the one in force at that time,
this date is the day before the day of the rotation, and it is the marker exactly when the
step runs on the day after the marker. -/
theorem C4_rename_to_day_before_now (h : Host) (e : Tick) (s : State) (f : File)
    (hcur : s.log.curFile = some f) (hst : statOk f s.world = true) :
    (∃ tail, (doRotate h e s).world.trace
        = s.world.trace
          ++ [Event.rotate,
              Event.rename (activePath s)
                ⟨(activePath s).base, some (formatDate h (e.tRename + (-1) * hours24))⟩
                (s.world.fs (activePath s)).isSome]
          ++ tail ∧
      ∀ ev ∈ tail, ∃ p, ev = Event.remove p) ∧
    (∀ c, s.world.fs (activePath s) = some c → historyPath h e s ≠ rotatedPath h e s →
      (doRotate h e s).world.fs
          ⟨(activePath s).base, some (formatDate h (e.tRename + (-1) * hours24))⟩
        = some c) ∧
    (h.utcOffset (e.tRename + (-1) * hours24) = h.utcOffset e.tRename →
      (rotatedPath h e s).date = some (formatDate h e.tRename - 1) ∧
      ((rotatedPath h e s).date = some s.log.todaydate ↔
        formatDate h e.tRename = s.log.todaydate + 1)) := by
  refine ⟨?_, ?_, ?_⟩
  · have := doRotate_trace h e s f hcur hst
    rwa [rotatedPath_eq] at this
  · intro c hc hne
    have := doRotate_rotated_fs h e s f hcur hst c hc hne
    rwa [rotatedPath_eq] at this
  · intro ho
    have hd := formatDate_sub_day h e.tRename ho
    rw [rotatedPath_eq]
    simp only [Option.some.injEq]
    rw [hd]
    exact ⟨rfl, by constructor <;> intro hh <;> omega⟩

/-- C5: after a rotation step of a logger with a file handle and a file name the sink is
always the MultiWriter of the new file and standard output, whatever it was before: a
logger built in the mode FILE writes to the console from its first rotation on. -/
theorem C5_rotation_adds_console (h : Host) (e : Tick) (s : State) (f : File)
    (hcur : s.log.curFile = some f) (hfn : s.log.filename ≠ "") :
    ∃ f', (doRotate h e s).log.innerLogger = some [Target.file f', Target.stdout] := by
  unfold doRotate
  simp only [hcur, deleteHistory_log, setMarker_log]
  unfold reopen
  have hfn' : (closeAndRename h e f (enterRotate s)).log.filename ≠ "" := by simpa using hfn
  simp only [hfn', ne_eq, not_false_eq_true, ↓reduceIte]
  exact ⟨_, rfl⟩

/-- C6 (amended): a rotation step of a logger with a file handle leaves the file of the
sweep (the local date of five times 24 hours before the time read by deleteHistory) absent,
leaves untouched every file other than the active one, the rename target (the local date of
24 hours before the time read for the rename) and the file of the sweep, and, when the handle
is open and the active file exists, puts the content of the active file under the rename
target, replacing what was there. When the step runs on date D and the offset from UTC in
force 24 hours and five times 24 hours earlier is the one in force at the step, the rename
target is the file of date D-1 and the sweep removes the file of date D-5: that file is
absent after the step and the files of dates D, D-2, D-3, D-4 are untouched. -/
theorem C6_retention_frame (h : Host) (e : Tick) (s : State) (f : File)
    (hcur : s.log.curFile = some f) :
    (doRotate h e s).world.fs (historyPath h e s) = none ∧
    (∀ q : Path, q ≠ activePath s → q ≠ rotatedPath h e s → q ≠ historyPath h e s →
      (doRotate h e s).world.fs q = s.world.fs q) ∧
    (statOk f s.world = true → ∀ c, s.world.fs (activePath s) = some c →
      historyPath h e s ≠ rotatedPath h e s →
      (doRotate h e s).world.fs (rotatedPath h e s) = some c) ∧
    (∀ D : Int, formatDate h e.tRename = D → formatDate h e.tSweep = D →
      h.utcOffset (e.tRename + (-1) * hours24) = h.utcOffset e.tRename →
      h.utcOffset (e.tSweep + (-1) * hours24 * 5) = h.utcOffset e.tSweep →
      rotatedPath h e s = ⟨(activePath s).base, some (D - 1)⟩ ∧
      historyPath h e s = ⟨(activePath s).base, some (D - 5)⟩ ∧
      (doRotate h e s).world.fs ⟨(activePath s).base, some (D - 5)⟩ = none ∧
      (∀ k : Int, k = 0 ∨ k = 2 ∨ k = 3 ∨ k = 4 →
        (doRotate h e s).world.fs ⟨(activePath s).base, some (D - k)⟩
          = s.world.fs ⟨(activePath s).base, some (D - k)⟩) ∧
      (statOk f s.world = true → ∀ c, s.world.fs (activePath s) = some c →
        (doRotate h e s).world.fs ⟨(activePath s).base, some (D - 1)⟩ = some c)) := by
  have hsweep : (doRotate h e s).world.fs (historyPath h e s) = none := by
    rw [doRotate_fs h e s f hcur]
    simp
  refine ⟨hsweep, doRotate_fs_frame h e s f hcur, ?_, ?_⟩
  · intro hst c hc hne
    exact doRotate_rotated_fs h e s f hcur hst c hc hne
  · intro D hren hsw ho1 ho5
    have hr : rotatedPath h e s = ⟨(activePath s).base, some (D - 1)⟩ := by
      rw [rotatedPath_eq, formatDate_sub_day h e.tRename ho1, hren]
    have hh : historyPath h e s = ⟨(activePath s).base, some (D - 5)⟩ := by
      rw [historyPath_eq, formatDate_sub_five h e.tSweep ho5, hsw]
    refine ⟨hr, hh, ?_, ?_, ?_⟩
    · rw [← hh]; exact hsweep
    · intro k hk
      apply doRotate_fs_frame h e s f hcur _ (path_dated_ne_active s _)
      · rw [hr]; apply path_dated_ne; omega
      · rw [hh]; apply path_dated_ne; omega
    · intro hst c hc
      have := doRotate_rotated_fs h e s f hcur hst c hc
        (by rw [hr, hh]; apply path_dated_ne; omega)
      rwa [hr] at this

/-! ## The marker invariant -/

theorem FileBacked.handle {s : State} (hwf : FileBacked s) :
    ∃ f, s.log.curFile = some f ∧ f.name = activePath s ∧ f.fd ∉ s.world.closedFds ∧
      f.fd < s.world.nextFd ∧
      (s.log.innerLogger = some [Target.file (some f)] ∨
        s.log.innerLogger = some [Target.file (some f), Target.stdout]) := by
  obtain ⟨_, _, _, hm⟩ := hwf
  cases hcur : s.log.curFile with
  | none => simp [hcur] at hm
  | some f =>
    simp only [hcur] at hm
    exact ⟨f, rfl, hm⟩

theorem Println_fileBacked (h : Host) (t : Int) (s : State) (msg : String) (hwf : FileBacked s) :
    ∃ w1, Println h t s msg = some ⟨s.log, w1⟩ ∧
      w1.fs = appendLine s.world.fs (activePath s) ⟨msg ++ "\n", formatDate h t⟩ ∧
      w1.dir = s.world.dir ∧ w1.closedFds = s.world.closedFds ∧
      w1.nextFd = s.world.nextFd := by
  obtain ⟨f, _, hname, hopen, _, hout⟩ := hwf.handle
  unfold Println
  rcases hout with hout | hout <;>
    simp [hout, writeAll, hopen, hname]

theorem doRotate_reopened (h : Host) (e : Tick) (s : State) (f : File) (hcur : s.log.curFile = some f)
    (hst : statOk f s.world = true) (hfn : s.log.filename ≠ "") (hok : e.openOk = true) :
    (doRotate h e s).log
      = { s.log with curFile := some ⟨s.world.nextFd, activePath s⟩,
                     innerLogger := some [Target.file (some ⟨s.world.nextFd, activePath s⟩),
                       Target.stdout],
                     todaydate := formatDate h e.tMark } ∧
    (doRotate h e s).world.closedFds = f.fd :: s.world.closedFds ∧
    (doRotate h e s).world.nextFd = s.world.nextFd + 1 ∧
    (doRotate h e s).world.dir = s.world.dir := by
  have hst' : statOk f (enterRotate s).world = true := hst
  unfold doRotate
  simp only [hcur, deleteHistory_log, deleteHistory_world, setMarker_log, setMarker_world]
  unfold reopen OpenFile
  have hfn' : (closeAndRename h e f (enterRotate s)).log.filename ≠ "" := by simpa using hfn
  simp only [hfn', ne_eq, not_false_eq_true, ↓reduceIte, hok]
  have hw := closeAndRename_world h e f (enterRotate s)
  refine ⟨?_, ?_, ?_, ?_⟩
  · simp [activePath, hw.2.1, hw.2.2.2]
  · unfold closeAndRename
    rw [if_pos hst']
    simp [Rename_frame, closeFile]
  · simp [hw.2.2.2]
  · simp [hw.2.1]

theorem doRotate_open_failed (h : Host) (e : Tick) (s : State) (f : File) (hcur : s.log.curFile = some f)
    (hfn : s.log.filename ≠ "") (hok : e.openOk = false) :
    (doRotate h e s).log.curFile = none ∧ (doRotate h e s).log.todaydate = formatDate h e.tMark := by
  unfold doRotate
  simp only [hcur, deleteHistory_log, setMarker_log]
  unfold reopen OpenFile
  simp [hfn, hok]

/-- C9 (amended): at the end of every iteration of the consumer on a well-formed
file-backed logger whose clock does not run backwards, the last line of the active file, if
any, was written on the day of the marker. Without rotation the marker is the day on which
the line of this iteration was written; with rotation the marker is the day read at the end
of the step, the active file is a fresh empty one (or absent when the open failed), and the
line of this iteration, written before the date was compared, is in the file the rotation
renamed, under the local date of 24 hours before the time read for the rename. -/
theorem C9_marker_invariant_step (h : Host) (e : Tick) (s : State) (msg : String)
    (hwf : FileBacked s)
    (h1 : s.log.todaydate ≤ formatDate h e.tWrite)
    (h2 : formatDate h e.tWrite ≤ formatDate h e.tCheck) :
    ∃ s', logworkerBody h e s msg = some s' ∧ markerInv s' ∧
      (formatDate h e.tCheck = s.log.todaydate →
        FileBacked s' ∧ s'.log.todaydate = formatDate h e.tWrite ∧
        s'.world.fs (activePath s')
          = (s.world.fs (activePath s)).map
              (fun c => c ++ [⟨msg ++ "\n", formatDate h e.tWrite⟩])) ∧
      (formatDate h e.tCheck ≠ s.log.todaydate →
        s'.log.todaydate = formatDate h e.tMark ∧
        (e.openOk = true → FileBacked s' ∧ s'.world.fs (activePath s') = some []) ∧
        (e.openOk = false → s'.log.curFile = none ∧ s'.world.fs (activePath s') = none) ∧
        (∀ c, s.world.fs (activePath s) = some c →
          historyPath h e s ≠ rotatedPath h e s →
          s'.world.fs (rotatedPath h e s)
            = some (c ++ [⟨msg ++ "\n", formatDate h e.tWrite⟩]))) := by
  obtain ⟨w1, hp, hfs1, hdir1, hcl1, hnf1⟩ := Println_fileBacked h e.tWrite s msg hwf
  obtain ⟨f, hcur, hname, hopen, hlt, hout⟩ := hwf.handle
  obtain ⟨hfn, hfds, hchan, _⟩ := hwf
  have hact1 : ∀ l : Logger, l.filename = s.log.filename →
      activePath ⟨l, w1⟩ = activePath s := by
    intro l hl
    simp [activePath, hdir1, hl]
  have hfsact : w1.fs (activePath s)
      = (s.world.fs (activePath s)).map (fun c => c ++ [⟨msg ++ "\n", formatDate h e.tWrite⟩]) := by
    rw [hfs1]; simp [appendLine]
  unfold logworkerBody
  rw [hp]
  by_cases hday : formatDate h e.tCheck = s.log.todaydate
  · simp only [hday, ne_eq, not_true_eq_false, ↓reduceIte]
    refine ⟨_, rfl, ?_, fun _ => ⟨?_, ?_, ?_⟩, fun hc => hc.elim⟩
    · intro c ln hc hl
      rw [hact1 _ rfl, hfsact] at hc
      cases hh : s.world.fs (activePath s) with
      | none => simp [hh] at hc
      | some c0 =>
        simp only [hh, Option.map_some', Option.some.injEq] at hc
        subst hc
        simp at hl
        subst hl
        show formatDate h e.tWrite = s.log.todaydate
        omega
    · refine ⟨hfn, ?_, hchan, ?_⟩
      · intro i hi
        rw [hnf1]
        exact hfds i (by rw [← hcl1]; exact hi)
      · simp only [hcur]
        refine ⟨?_, ?_, ?_, hout⟩
        · rw [hact1 _ rfl]; exact hname
        · rw [hcl1]; exact hopen
        · rw [hnf1]; exact hlt
    · show s.log.todaydate = formatDate h e.tWrite
      omega
    · rw [hact1 _ rfl, hfsact]
  · obtain ⟨q, hd, _⟩ := Debugf_total h e.call s.log "doRotate run %v %v"
      [Value.date (formatDate h e.tCheck), Value.date e.loggingToday] hchan
    simp only [ne_eq, hday, not_false_eq_true, ↓reduceIte, hd]
    have hcur2 : ({ log := { s.log with msgQueue := q }, world := w1 } : State).log.curFile
        = some f := hcur
    have hst2 : statOk f ({ log := { s.log with msgQueue := q }, world := w1 } : State).world
        = true := by
      simp [statOk, hcl1, hopen]
    have hfn2 : ({ log := { s.log with msgQueue := q }, world := w1 } : State).log.filename
        ≠ "" := hfn
    have hact2 := hact1 { s.log with msgQueue := q } rfl
    have hactfs := doRotate_active_fs h e _ f hcur2 hst2 hfn2
    have hfr := doRotate_frame h e ({ log := { s.log with msgQueue := q }, world := w1 } : State)
    have hact3 : activePath (doRotate h e { log := { s.log with msgQueue := q }, world := w1 })
        = activePath s := by
      rw [← hact2]
      simp [activePath, hfr.2.2.2.2.1, hfr.2.2.2.2.2.2.1]
    rw [hact2] at hactfs
    refine ⟨_, rfl, ?_, fun hc => hc.elim, fun _ => ⟨?_, ?_, ?_, ?_⟩⟩
    · intro c ln hc hl
      rw [hact3, hactfs] at hc
      by_cases hok : e.openOk = true
      · simp only [hok, ↓reduceIte, Option.some.injEq] at hc
        subst hc
        simp at hl
      · simp [hok] at hc
    · by_cases hok : e.openOk = true
      · rw [(doRotate_reopened h e _ f hcur2 hst2 hfn2 hok).1]
      · rw [(doRotate_open_failed h e _ f hcur2 hfn2 (by simpa using hok)).2]
    · intro hok
      obtain ⟨r1, r2, r3, r4⟩ := doRotate_reopened h e _ f hcur2 hst2 hfn2 hok
      refine ⟨⟨?_, ?_, ?_, ?_⟩, ?_⟩
      · rw [hfr.2.2.2.2.1]; exact hfn
      · intro i hi
        rw [r2] at hi
        rw [r3]
        rcases List.mem_cons.mp hi with hi | hi
        · rw [hi]; exact Nat.lt_succ_of_lt (by rw [hnf1]; exact hlt)
        · exact Nat.lt_succ_of_lt (by rw [hnf1]; exact hfds i (by rw [← hcl1]; exact hi))
      · rw [hfr.2.2.1, hfr.2.1]; exact hchan
      · rw [r1]
        simp only [hact3, hact2, r2, r3, List.mem_cons, not_or, true_and]
        refine ⟨⟨?_, ?_⟩, by omega, Or.inr trivial⟩
        · rw [hnf1]; omega
        · intro hmem
          have := hfds _ (by rw [← hcl1]; exact hmem)
          rw [hnf1] at this
          omega
      · rw [hact3, hactfs]; simp [hok]
    · intro hok
      refine ⟨(doRotate_open_failed h e _ f hcur2 hfn2 hok).1, ?_⟩
      rw [hact3, hactfs]; simp [hok]
    · intro c hc hne
      have hc2 : ({ log := { s.log with msgQueue := q }, world := w1 } : State).world.fs
          (activePath { log := { s.log with msgQueue := q }, world := w1 })
          = some (c ++ [⟨msg ++ "\n", formatDate h e.tWrite⟩]) := by
        rw [hact2]
        show w1.fs (activePath s) = _
        rw [hfsact, hc]; rfl
      have hp2 := paths_congr h e s { log := { s.log with msgQueue := q }, world := w1 }
        hdir1 rfl
      have := doRotate_rotated_fs h e _ f hcur2 hst2 _ hc2 (by rw [hp2.2.1, hp2.2.2]; exact hne)
      rw [hp2.2.1] at this
      exact this

/-! ## The statements at concrete inputs -/

/-- C1 at a console logger with threshold ERROR: Errorf appends its record, Warningln appends nothing. -/
theorem C1_level_gate_witness :
    (consoleState ERROR []).log.cancelled = false ∧
    (consoleState ERROR []).log.queueClosed = false ∧
    Method.call .Errorf exampleHost ⟨0, exampleStack⟩ (consoleState ERROR []).log "y" []
      = some { (consoleState ERROR []).log with msgQueue := ["T0 ERROR main.go:12 y"] } ∧
    Method.call .Warningln exampleHost ⟨0, exampleStack⟩ (consoleState ERROR []).log ""
      [Value.str "x"] = some (consoleState ERROR []).log :=
  ⟨rfl, rfl,
    ((C1_level_gate exampleHost (consoleState ERROR []).log rfl rfl).1
      .Errorf ⟨0, exampleStack⟩ "y" []).1 (by decide),
    ((C1_level_gate exampleHost (consoleState ERROR []).log rfl rfl).1
      .Warningln ⟨0, exampleStack⟩ "" [Value.str "x"]).2 (by decide)⟩

/-- C2 at a console logger holding the records a and b: after Close two iterations hand over a, b and the consumer leaves the loop. -/
theorem C2_close_drains_in_order_witness :
    (consoleState DEBUG ["a", "b"]).log.innerLogger.isSome = true ∧
    Close (consoleState DEBUG ["a", "b"]).log
      = some { (consoleState DEBUG ["a", "b"]).log with cancelled := true, queueClosed := true } ∧
    (logworker exampleHost [tickAt 10, tickAt 86410]
      { consoleState DEBUG ["a", "b"] with
        log := { (consoleState DEBUG ["a", "b"]).log with
          cancelled := true, queueClosed := true } }).1 = Status.exited ∧
    (logworker exampleHost [tickAt 10, tickAt 86410]
      { consoleState DEBUG ["a", "b"] with
        log := { (consoleState DEBUG ["a", "b"]).log with
          cancelled := true, queueClosed := true } }).2.world.lines = ["a", "b"] :=
  ⟨rfl, rfl,
    ((C2_close_drains_in_order exampleHost (consoleState DEBUG ["a", "b"]) _
      [tickAt 10, tickAt 86410] rfl rfl).1 (by decide)).1,
    ((C2_close_drains_in_order exampleHost (consoleState DEBUG ["a", "b"]) _
      [tickAt 10, tickAt 86410] rfl rfl).1 (by decide)).2.2.1⟩

/-- C3 at the console logger built by New on day 0: two records drained on day 1 make two rotation steps and the marker is still day 0. -/
theorem C3_console_rotation_every_record_witness :
    New exampleHost 0 true (World.empty "/app") "" true false INFO 3 STDOUT
      = some (consoleState INFO []) ∧
    (logworker exampleHost [tickAt 86410, tickAt 86420]
      (consoleState INFO ["a", "b"])).2.world.trace = [Event.rotate, Event.rotate] ∧
    (logworker exampleHost [tickAt 86410, tickAt 86420]
      (consoleState INFO ["a", "b"])).2.log.todaydate = 0 ∧
    formatDate exampleHost 86420 = 1 :=
  ⟨rfl,
    (C3_console_rotation_every_record exampleHost [tickAt 86410, tickAt 86420]
      (consoleState INFO ["a", "b"]) rfl rfl (by decide) (by decide) (by decide)).1,
    (C3_console_rotation_every_record exampleHost [tickAt 86410, tickAt 86420]
      (consoleState INFO ["a", "b"]) rfl rfl (by decide) (by decide) (by decide)).2,
    by decide⟩

/-- C4, as stated, fails: a logger whose marker is day 0 and which rotates on day 3 renames
the active file under date 2, not under the marker. -/
theorem C4_counterexample :
    fileState.log.todaydate = 0 ∧ formatDate exampleHost 259210 = 3 ∧
    (doRotate exampleHost (tickAt 259210) fileState).world.trace
      = [Event.rotate, Event.rename examplePath ⟨"/app/logs/app.log", some 2⟩ true] := by
  decide

/-- C4 (amended) at the logger of app.log: rotating on day 1 in a zone without offset
changes, the renamed file is the one of date 0; rotating half an hour after local midnight of
day 14683 in a zone whose clocks went forward the day before, it is the one of date 14681. -/
theorem C4_rename_to_day_before_now_witness :
    fileState.log.curFile = some ⟨3, examplePath⟩ ∧
    statOk ⟨3, examplePath⟩ fileState.world = true ∧
    (doRotate exampleHost (tickAt 86410) fileState).world.fs ⟨"/app/logs/app.log", some 0⟩
      = some [] ∧
    (rotatedPath exampleHost (tickAt 86410) fileState).date
      = some (formatDate exampleHost (tickAt 86410).tRename - 1) ∧
    formatDate dstHost (tickAt 1268627400).tRename = 14683 ∧
    (doRotate dstHost (tickAt 1268627400) fileState).world.fs
      ⟨"/app/logs/app.log", some 14681⟩ = some [] :=
  ⟨rfl, rfl,
    (C4_rename_to_day_before_now exampleHost (tickAt 86410) fileState ⟨3, examplePath⟩
      rfl rfl).2.1 [] rfl (by decide),
    ((C4_rename_to_day_before_now exampleHost (tickAt 86410) fileState ⟨3, examplePath⟩
      rfl rfl).2.2 rfl).1,
    by decide,
    (C4_rename_to_day_before_now dstHost (tickAt 1268627400) fileState ⟨3, examplePath⟩
      rfl rfl).2.1 [] rfl (by decide)⟩

/-- C5 at the logger New builds in the mode FILE: its sink is the file alone, and after one rotation it holds standard output too. -/
theorem C5_rotation_adds_console_witness :
    New exampleHost 0 true (World.empty "/app") "app.log" true false INFO 3 FILE
      = some fileState ∧
    fileState.log.innerLogger = some [Target.file (some ⟨3, examplePath⟩)] ∧
    fileState.log.filename ≠ "" ∧
    ∃ f', (doRotate exampleHost (tickAt 86410) fileState).log.innerLogger
      = some [Target.file f', Target.stdout] :=
  ⟨rfl, rfl, by decide,
    C5_rotation_adds_console exampleHost (tickAt 86410) fileState ⟨3, examplePath⟩ rfl
      (by decide)⟩

/-- C6, as stated, fails for k = 1: a rotation on day 1 replaces the file of date 0 that was
there by the active file. -/
theorem C6_counterexample :
    formatDate exampleHost 86410 = 1 ∧
    fileStateOld.world.fs ⟨"/app/logs/app.log", some (1 - 1)⟩ = some [⟨"old\n", 0⟩] ∧
    (doRotate exampleHost (tickAt 86410) fileStateOld).world.fs ⟨"/app/logs/app.log", some (1 - 1)⟩
      = some [⟨"new\n", 0⟩] := by
  decide

/-- C6 (amended) at a rotation on day 1 in a zone without offset changes: the file of
date -4, present before, is absent after, and the file of date 1 - 2 is as before; in the zone
whose clocks went forward, half an hour after local midnight of day 14683, the sweep looks at
the file of date 14677. -/
theorem C6_retention_frame_witness :
    fileStateOld.log.curFile = some ⟨3, examplePath⟩ ∧
    formatDate exampleHost (tickAt 86410).tRename = 1 ∧
    formatDate exampleHost (tickAt 86410).tSweep = 1 ∧
    fileStateOld.world.fs ⟨"/app/logs/app.log", some (1 - 5)⟩ = some [⟨"stale\n", -4⟩] ∧
    (doRotate exampleHost (tickAt 86410) fileStateOld).world.fs
      ⟨(activePath fileStateOld).base, some (1 - 5)⟩ = none ∧
    (doRotate exampleHost (tickAt 86410) fileStateOld).world.fs
      ⟨(activePath fileStateOld).base, some (1 - 2)⟩
      = fileStateOld.world.fs ⟨(activePath fileStateOld).base, some (1 - 2)⟩ ∧
    formatDate dstHost (tickAt 1268627400).tSweep = 14683 ∧
    (doRotate dstHost (tickAt 1268627400) fileStateOld).world.fs
      ⟨"/app/logs/app.log", some 14677⟩ = none :=
  ⟨rfl, by decide, by decide, by decide,
    ((C6_retention_frame exampleHost (tickAt 86410) fileStateOld ⟨3, examplePath⟩ rfl).2.2.2
      1 (by decide) (by decide) rfl rfl).2.2.1,
    ((C6_retention_frame exampleHost (tickAt 86410) fileStateOld ⟨3, examplePath⟩ rfl).2.2.2
      1 (by decide) (by decide) rfl rfl).2.2.2.1 2 (by decide),
    by decide,
    (C6_retention_frame dstHost (tickAt 1268627400) fileStateOld ⟨3, examplePath⟩ rfl).1⟩

/-- C7 at caller depth 100, where the capture fails: the result is the template alone, not the stamp, the tag and the template. -/
theorem C7_getFormat_capture_failure_witness :
    exampleStack 100 = none ∧
    getFormat exampleHost ⟨0, exampleStack⟩
      { (consoleState DEBUG []).log with runtimeCaller := 100 } "ERROR " "boom" = "boom" ∧
    exampleHost.formatStamp 0 ++ "ERROR " ++ "boom" = "T0 ERROR boom" :=
  ⟨by decide,
    C7_getFormat_capture_failure exampleHost ⟨0, exampleStack⟩
      { (consoleState DEBUG []).log with runtimeCaller := 100 } "ERROR " "boom" (by decide),
    by decide⟩

/-- C8 at a console logger holding one record: after Close, Errorf returns the logger unchanged. -/
theorem C8_no_enqueue_after_close_witness :
    Close (consoleState DEBUG ["a"]).log
      = some { (consoleState DEBUG ["a"]).log with cancelled := true, queueClosed := true } ∧
    Method.call .Errorf exampleHost ⟨0, exampleStack⟩
      { (consoleState DEBUG ["a"]).log with cancelled := true, queueClosed := true } "y" []
      = some { (consoleState DEBUG ["a"]).log with cancelled := true, queueClosed := true } :=
  ⟨rfl,
    (C8_no_enqueue_after_close exampleHost (consoleState DEBUG ["a"]).log _ rfl
      .Errorf ⟨0, exampleStack⟩ "y" []).1⟩

/-- C9, as stated, fails: the first record drained on day 1 by a logger whose marker is
day 0 is written to the old file, and that file is renamed under date 0. -/
theorem C9_counterexample :
    fileState.log.todaydate = 0 ∧ formatDate exampleHost (tickAt 86410).tWrite = 1 ∧
    (logworkerBody exampleHost (tickAt 86410) fileState "r").map
        (fun s' => s'.world.fs ⟨"/app/logs/app.log", some 0⟩)
      = some (some [⟨"r\n", 1⟩]) := by
  decide

/-- C9 (amended) at the logger of app.log whose active file holds a line of day 0:
draining a record on day 0 makes no rotation, the active file ends with the new line and the
marker is the day it was written; draining a record on day 1 rotates, and the marker
invariant holds after the step. -/
theorem C9_marker_invariant_step_witness :
    FileBacked fileStateOld ∧
    fileStateOld.log.todaydate ≤ formatDate exampleHost (tickAt 10).tWrite ∧
    formatDate exampleHost (tickAt 10).tWrite ≤ formatDate exampleHost (tickAt 10).tCheck ∧
    (∃ s', logworkerBody exampleHost (tickAt 10) fileStateOld "r" = some s' ∧ markerInv s' ∧
      s'.log.todaydate = formatDate exampleHost (tickAt 10).tWrite ∧
      s'.world.fs (activePath s') = some [⟨"new\n", 0⟩, ⟨"r\n", 0⟩]) ∧
    (∃ s', logworkerBody exampleHost (tickAt 86410) fileStateOld "r" = some s' ∧
      markerInv s' ∧ s'.log.todaydate = 1 ∧
      s'.world.fs ⟨"/app/logs/app.log", some 0⟩ = some [⟨"new\n", 0⟩, ⟨"r\n", 1⟩]) :=
  ⟨by simp [FileBacked, fileStateOld, fileState, activePath, examplePath],
    by decide, by decide,
    (C9_marker_invariant_step exampleHost (tickAt 10) fileStateOld "r"
      (by simp [FileBacked, fileStateOld, fileState, activePath, examplePath])
      (by decide) (by decide)).imp
      fun _ hs => ⟨hs.1, hs.2.1, (hs.2.2.1 (by decide)).2.1, (hs.2.2.1 (by decide)).2.2⟩,
    (C9_marker_invariant_step exampleHost (tickAt 86410) fileStateOld "r"
      (by simp [FileBacked, fileStateOld, fileState, activePath, examplePath])
      (by decide) (by decide)).imp
      fun _ hs => ⟨hs.1, hs.2.1, (hs.2.2.2 (by decide)).1,
        (hs.2.2.2 (by decide)).2.2.2 [⟨"new\n", 0⟩] rfl (by decide)⟩⟩

/-- C10 at a console logger with threshold DEBUG holding one record, on day 1: after the iteration the channel holds the record doRotate run. -/
theorem C10_consumer_feeds_own_queue_witness :
    (consoleState DEBUG ["a"]).log.curFile = none ∧
    (consoleState DEBUG ["a"]).log.level ≤ DEBUG ∧
    formatDate exampleHost (tickAt 86410).tCheck ≠ (consoleState DEBUG ["a"]).log.todaydate ∧
    (logworker exampleHost [tickAt 86410] (consoleState DEBUG ["a"])).1 = Status.running ∧
    (logworker exampleHost [tickAt 86410] (consoleState DEBUG ["a"])).2.log
      = { (consoleState DEBUG ["a"]).log with
          msgQueue := ["T86410 DEBUG main.go:12 doRotate run 1 0"] } :=
  ⟨rfl, by decide, by decide,
    ((C10_consumer_feeds_own_queue exampleHost (consoleState DEBUG ["a"]) rfl rfl
      (by decide) rfl rfl).1 (tickAt 86410) "a" [] rfl (by decide)).1,
    ((C10_consumer_feeds_own_queue exampleHost (consoleState DEBUG ["a"]) rfl rfl
      (by decide) rfl rfl).1 (tickAt 86410) "a" [] rfl (by decide)).2⟩

end logger
